import Mathlib

/-
  Shallow embedding of the failover-aware multi-provider dispatch and
  strategic routing core of the xtreet-ai repository:

    - src/core/retry.ts                   executeWithFailover, computeDelay
    - src/core/router.ts                  two routeTask variants, defaultScoring
    - src/core/strategicModelSelector.ts  selectStrategicModel, CATEGORY_STRATEGY
    - src/unnamed/part_016                troyaSelect, scoreProvider

  Conventions of the embedding:
  - JS numbers are embedded as rationals; all values reached by the
    routed arithmetic are exact multiples of 1/100, so rational
    arithmetic agrees with IEEE doubles after the two-decimal rounding
    the source applies.
  - A provider's execute(prompt, config) is embedded as a function of the
    prompt and of the per-provider attempt counter (the only state a
    provider can observe across the retries of one failover run); the
    opaque config object is folded into that function.
  - Thrown JS errors are Except.error values carrying the message.
  - The outcome's attemptLog field records the (provider id, attempt)
    pairs in execution order; it corresponds one-to-one to the
    failover_attempt log events the source emits at the top of every try.
  - The source field named after the Lean keyword for non-total
    definitions (the outcome's degraded-success flag) is renamed
    isPartialOutcome.
-/

/- ===================== core/retry.ts ===================== -/

inductive BackoffStrategy
  | exponential
  | linear
  | constant
deriving DecidableEq, Repr

inductive ExecutionDepth
  | fast
  | normal
  | deep
deriving DecidableEq, Repr

/- ExecuteResult: { text, tokensUsed?, meta? }.  Of the free-form meta
   record the dispatch core only reads the boolean meta.partial flag,
   embedded as the metaPartial field (false when meta is absent, matching
   Boolean(res.meta?.partial)). -/
structure ExecResult where
  text : String
  tokensUsed : Option Nat := none
  metaPartial : Bool := false
deriving DecidableEq, Repr

structure ModelProvider where
  id : String
  execute : String → Nat → Except String ExecResult

structure FailoverOptions where
  depth : Option ExecutionDepth := none
  backoff : Option BackoffStrategy := none
  backoffBaseMs : Option ℚ := none
  maxBackoffMs : Option ℚ := none
  partialThresholdChars : Option Nat := none
  allowPartial : Option Bool := none
  perProviderTimeoutMs : Option ℚ := none

def RETRIES_BY_DEPTH : ExecutionDepth → Nat
  | ExecutionDepth.fast => 0
  | ExecutionDepth.normal => 1
  | ExecutionDepth.deep => 3

def computeDelay (attempt : Nat) (strategy : BackoffStrategy) (base maxMs : ℚ) : ℚ :=
  let delay : ℚ :=
    match strategy with
    | BackoffStrategy.exponential => base * 2 ^ attempt
    | BackoffStrategy.linear => base * attempt
    | BackoffStrategy.constant => base
  min delay maxMs

structure FailoverError where
  provider : String
  attempt : Nat
  error : String
deriving DecidableEq, Repr

structure PartialEntry where
  provider : String
  res : ExecResult
deriving DecidableEq, Repr

structure FailoverOutcome where
  result : Option ExecResult
  providerId : Option String := none
  usedProviders : List String
  isPartialOutcome : Bool
  errors : List FailoverError
  attemptLog : List (String × Nat)
deriving DecidableEq, Repr

/- The mutable locals of executeWithFailover's main loop. -/
structure FailoverState where
  errors : List FailoverError
  usedProviders : List String
  partialResults : List PartialEntry
  attemptLog : List (String × Nat)
deriving DecidableEq, Repr

/- The inner retry loop over one provider: the list argument enumerates
   the remaining attempt indices (initially 0, 1, ..., maxRetries).
   Sum.inl is an early return out of both loops; Sum.inr falls through
   to the next provider.  The backoff sleep of the catch branch affects
   timing only, so it leaves no trace in the state. -/
def attemptLoop (p : ModelProvider) (prompt : String) (maxRetries partialThreshold : Nat)
    (allowPartial : Bool) : List Nat → FailoverState → Sum FailoverOutcome FailoverState
  | [], st => Sum.inr st
  | attempt :: rest, st =>
    let st := { st with attemptLog := st.attemptLog ++ [(p.id, attempt)] }
    match p.execute prompt attempt with
    | Except.ok res =>
      let text := res.text
      let isPart : Bool := res.metaPartial || decide (text.length < partialThreshold)
      if isPart then
        let st :=
          if st.partialResults.any (fun q => q.provider == p.id) then st
          else { st with partialResults := st.partialResults ++ [⟨p.id, res⟩] }
        if allowPartial && (attempt == maxRetries) then
          Sum.inl { result := some res, providerId := some p.id,
                    usedProviders := st.usedProviders, isPartialOutcome := true,
                    errors := st.errors, attemptLog := st.attemptLog }
        else
          attemptLoop p prompt maxRetries partialThreshold allowPartial rest st
      else
        Sum.inl { result := some res, providerId := some p.id,
                  usedProviders := st.usedProviders, isPartialOutcome := false,
                  errors := st.errors, attemptLog := st.attemptLog }
    | Except.error err =>
      let st := { st with errors := st.errors ++ [⟨p.id, attempt, err⟩] }
      attemptLoop p prompt maxRetries partialThreshold allowPartial rest st

/- The outer loop over the ordered provider list. -/
def providerLoop (prompt : String) (maxRetries partialThreshold : Nat) (allowPartial : Bool) :
    List ModelProvider → FailoverState → Sum FailoverOutcome FailoverState
  | [], st => Sum.inr st
  | p :: ps, st =>
    let st := { st with usedProviders := st.usedProviders ++ [p.id] }
    match attemptLoop p prompt maxRetries partialThreshold allowPartial
        (List.range (maxRetries + 1)) st with
    | Sum.inl outcome => Sum.inl outcome
    | Sum.inr st => providerLoop prompt maxRetries partialThreshold allowPartial ps st

/- Array.prototype.join with a separator. -/
def joinSep (sep : String) : List String → String
  | [] => ""
  | [s] => s
  | s :: rest => s ++ sep ++ joinSep sep rest

def resolvedDepth (opts : FailoverOptions) : ExecutionDepth :=
  opts.depth.getD ExecutionDepth.normal

def resolvedMaxRetries (opts : FailoverOptions) : Nat :=
  RETRIES_BY_DEPTH (resolvedDepth opts)

def resolvedThreshold (opts : FailoverOptions) : Nat :=
  opts.partialThresholdChars.getD 20

def resolvedAllowPartial (opts : FailoverOptions) : Bool :=
  opts.allowPartial.getD false

/- The partial-merge fallback and the all-failed return, applied to the
   state the loops fall through with.  The merged meta is
   { partial: true, sources: ... }; of it the embedding keeps the partial
   flag (the sources array is only ever logged). -/
def exhaustedOutcome (st : FailoverState) : FailoverOutcome :=
  match st.partialResults with
  | [] =>
    { result := none, usedProviders := st.usedProviders, isPartialOutcome := false,
      errors := st.errors, attemptLog := st.attemptLog }
  | firstPartial :: _ =>
    let mergedText :=
      joinSep "\n\n---\n\n"
        ((st.partialResults.map (fun q => q.res.text)).filter (fun t => !(t == "")))
    let mergedTokens :=
      st.partialResults.foldl (fun sum q => sum + q.res.tokensUsed.getD 0) 0
    let mergedResult : ExecResult :=
      { text := mergedText, tokensUsed := some mergedTokens, metaPartial := true }
    { result := some mergedResult, providerId := some firstPartial.provider,
      usedProviders := st.usedProviders, isPartialOutcome := true,
      errors := st.errors, attemptLog := st.attemptLog }

def executeWithFailover (providers : List ModelProvider) (prompt : String)
    (opts : FailoverOptions := {}) : Except String FailoverOutcome :=
  if providers.length = 0 then
    Except.error "No providers available for failover execution"
  else
    let maxRetries := resolvedMaxRetries opts
    let partialThreshold := resolvedThreshold opts
    let allowPartial := resolvedAllowPartial opts
    match providerLoop prompt maxRetries partialThreshold allowPartial providers
        { errors := [], usedProviders := [], partialResults := [], attemptLog := [] } with
    | Sum.inl outcome => Except.ok outcome
    | Sum.inr st => Except.ok (exhaustedOutcome st)

/- Concrete providers used by witnesses and counterexamples. -/

def providerPartial1 : ModelProvider :=
  ⟨"p1", fun _ _ => Except.ok { text := "part1", tokensUsed := some 5, metaPartial := true }⟩

def providerPartial2 : ModelProvider :=
  ⟨"p2", fun _ _ => Except.ok { text := "part2", tokensUsed := some 7, metaPartial := true }⟩

def providerPartialThenThrow : ModelProvider :=
  ⟨"p1", fun _ attempt =>
    if attempt == 0 then Except.ok { text := "part1", tokensUsed := some 5, metaPartial := true }
    else Except.error "boom"⟩

def providerAlwaysThrow : ModelProvider :=
  ⟨"p1", fun _ _ => Except.error "boom"⟩

def providerAlwaysFull : ModelProvider :=
  ⟨"p2", fun _ _ =>
    Except.ok { text := "ok response text that is long enough", tokensUsed := some 10 }⟩

/- ===================== core/strategicModelSelector.ts ===================== -/

structure ModelChoice where
  provider : String
  model : String
  temperature : ℚ
deriving DecidableEq, Repr

structure ModelExecutionPlan where
  primary : ModelChoice
  fallbacks : List ModelChoice
  reason : String
deriving DecidableEq, Repr

structure CategoryStrategy where
  orderedModels : List (String × String)
  baseTemp : ℚ
  rationale : String
deriving DecidableEq, Repr

/- The CATEGORY_STRATEGY record; categories are embedded as strings since
   the router casts freely.  Lookup of a missing key yields none, mirrored
   by the ?? fallback to the other entry in selectStrategicModel. -/
def categoryStrategy? (category : String) : Option CategoryStrategy :=
  if category == "creative" then
    some { orderedModels := [("claude", "claude-3-opus"), ("openai", "gpt-4o"),
             ("gemini", "gemini-default"), ("mistral", "mistral-large")],
           baseTemp := 0.7,
           rationale := "Deep creativity, symbolism, narrative coherence." }
  else if category == "emotional" then
    some { orderedModels := [("claude", "claude-3-opus"), ("openai", "gpt-4o"),
             ("gemini", "gemini-default")],
           baseTemp := 0.6,
           rationale := "Empathy, emotional depth, human nuance." }
  else if category == "code" then
    some { orderedModels := [("deepseek", "deepseek-coder"), ("openai", "gpt-4o"),
             ("qwen", "qwen-max"), ("grok", "grok-default")],
           baseTemp := 0.05,
           rationale := "Correctness, reasoning, architecture over speed." }
  else if category == "math" then
    some { orderedModels := [("deepseek", "deepseek-math"), ("openai", "gpt-4o"),
             ("grok", "grok-default")],
           baseTemp := 0.0,
           rationale := "Deterministic mathematical reasoning." }
  else if category == "vision" then
    some { orderedModels := [("openai", "gpt-4o"), ("gemini", "gemini-default"),
             ("mistral", "mistral-large")],
           baseTemp := 0.2,
           rationale := "Multimodal perception and image understanding." }
  else if category == "branding" then
    some { orderedModels := [("claude", "claude-3-opus"), ("openai", "gpt-4o"),
             ("gemini", "gemini-default"), ("mistral", "mistral-large")],
           baseTemp := 0.55,
           rationale := "Brand voice consistency, identity, controlled expression." }
  else if category == "efficiency" then
    some { orderedModels := [("openai", "gpt-4o-mini"), ("qwen", "qwen-max"),
             ("grok", "grok-default"), ("gemini", "gemini-default")],
           baseTemp := 0.15,
           rationale := "Speed/cost tradeoff with acceptable quality." }
  else if category == "informative" then
    some { orderedModels := [("openai", "gpt-4o"), ("claude", "claude-3-sonnet"),
             ("gemini", "gemini-default")],
           baseTemp := 0.25,
           rationale := "Clarity, structure, factual accuracy." }
  else if category == "other" then
    some { orderedModels := [("openai", "gpt-4o-mini"), ("gemini", "gemini-default"),
             ("grok", "grok-default")],
           baseTemp := 0.3,
           rationale := "Safe general-purpose fallback." }
  else if category == "current" then
    some { orderedModels := [("openai", "gpt-4o"), ("gemini", "gemini-default")],
           baseTemp := 0.3,
           rationale := "Most reliable up-to-date general intelligence." }
  else if category == "fast" then
    some { orderedModels := [("llama", "llama-fast"), ("grok", "grok-default"),
             ("openai", "gpt-4o-mini")],
           baseTemp := 0.2,
           rationale := "Ultra-low latency responses where quality ceiling is acceptable." }
  else none

def otherStrategy : CategoryStrategy :=
  { orderedModels := [("openai", "gpt-4o-mini"), ("gemini", "gemini-default"),
      ("grok", "grok-default")],
    baseTemp := 0.3,
    rationale := "Safe general-purpose fallback." }

def clamp (x : ℚ) (lo : ℚ := 0) (hi : ℚ := 1) : ℚ :=
  max lo (min hi x)

/- Math.round: round half toward positive infinity, exact on rationals. -/
def jsRound (q : ℚ) : ℤ :=
  ⌊q + 1 / 2⌋

/- Math.round(t * 100) / 100. -/
def round2 (x : ℚ) : ℚ :=
  (jsRound (x * 100) : ℚ) / 100

/- The reason is the join of four parts with " | "; the numeric rendering
   of the confidence inside it is abstracted by toString. -/
def planReason (category : String) (intentConfidence : Option ℚ) (taskComplexity : String)
    (rationale : String) : String :=
  joinSep " | "
    ["Category: " ++ category,
     "Complexity: " ++ taskComplexity,
     (match intentConfidence with
      | some c => "IntentConfidence: " ++ toString c
      | none => "IntentConfidence: n/a"),
     rationale]

/- The temperature adjustment chain of selectStrategicModel. -/
def strategicTemperature (strategy : CategoryStrategy) (intentConfidence : Option ℚ)
    (taskComplexity : String) : ℚ :=
  let t0 := clamp strategy.baseTemp
  let t1 := if taskComplexity == "high" then t0 - 0.15 else t0
  let t2 := if taskComplexity == "low" then t1 + 0.05 else t1
  let t3 :=
    match intentConfidence with
    | some c =>
      let a := if c > 0.85 then t2 - 0.12 else t2
      if c < 0.4 then a + 0.12 else a
    | none => t2
  clamp (round2 t3)

def selectStrategicModel (category : String) (intentConfidence : Option ℚ := none)
    (taskComplexity : String := "medium") : ModelExecutionPlan :=
  let strategy := (categoryStrategy? category).getD otherStrategy
  let temperature := strategicTemperature strategy intentConfidence taskComplexity
  -- [primary, ...fallbacks] destructuring; every strategy entry's
  -- orderedModels list is non-empty, so the headD default is unreachable.
  let primaryPair := strategy.orderedModels.headD ("", "")
  let fallbackPairs := strategy.orderedModels.tail
  { primary := { provider := primaryPair.1, model := primaryPair.2, temperature := temperature },
    fallbacks := fallbackPairs.map
      (fun m => { provider := m.1, model := m.2, temperature := temperature }),
    reason := planReason category intentConfidence taskComplexity strategy.rationale }

/- ===================== shared router data model ===================== -/

structure ModelCandidate where
  provider : String
  model : String
  temperature : Option ℚ := none
  costEstimate : Option ℚ := none
  latencyEstimateMs : Option ℚ := none
  reason : Option String := none
deriving DecidableEq, Repr

structure DecomposedTask where
  id : String
  text : String
deriving DecidableEq, Repr

/- IntentProfile: of the free-form entities record the routing core only
   reads entities.complexity, embedded as entitiesComplexity. -/
structure IntentProfile where
  intent : String
  category : String
  confidence : ℚ
  entitiesComplexity : Option String := none
deriving DecidableEq, Repr

/- PipelineContext: the routing core only reads ctx.request.meta.complexity. -/
structure PipelineContext where
  requestMetaComplexity : Option String := none
deriving DecidableEq, Repr

structure RoutingDecision where
  taskId : String
  candidates : List ModelCandidate
  selected : Option ModelCandidate
  fanOut : Bool
deriving DecidableEq, Repr

/- Static provider configuration (config.getProvidersOrdered entries).
   Of the open meta record the routing core reads defaultTemperature,
   costPer1k, costEstimate, latencyMs and qualityScore. -/
structure ProviderMeta where
  defaultModel : Option String := none
  defaultTemperature : Option ℚ := none
  costPer1k : Option ℚ := none
  costEstimate : Option ℚ := none
  latencyMs : Option ℚ := none
  qualityScore : Option ℚ := none
deriving DecidableEq, Repr

structure ProviderConfig where
  name : String
  enabled : Bool
  meta : Option ProviderMeta := none
deriving DecidableEq, Repr

/- The process environment a router call reads: the priority-ordered
   provider list, the capability registry membership test, and the
   multicore feature flag. -/
structure RouterEnv where
  providersOrdered : List ProviderConfig
  knownProvider : String → Bool
  multicore : Bool

def ScoringStrategy : Type :=
  ModelCandidate → DecomposedTask → Option IntentProfile → Option PipelineContext → ℚ

structure RouterOptions where
  scoring : Option ScoringStrategy := none
  maxCandidates : Option Nat := none

/- String.prototype.startsWith, stated on the character data so it is
   executable inside the kernel. -/
def strStartsWith (s pre : String) : Bool :=
  pre.data.isPrefixOf s.data

/- candidate.reason?.startsWith('strategic:') with JS optional chaining:
   an absent reason is falsy. -/
def reasonStartsStrategic (c : ModelCandidate) : Bool :=
  match c.reason with
  | some r => strStartsWith r "strategic:"
  | none => false

/- task.text.split on whitespace runs, empties filtered out. -/
def countWords (s : String) : Nat :=
  ((s.data.splitOnP (fun c => c.isWhitespace)).filter (fun w => !w.isEmpty)).length

/- The a || b idiom on optional numeric metadata: 0 is falsy. -/
def jsOrNum (a b : Option ℚ) : Option ℚ :=
  match a with
  | some x => if x == 0 then b else some x
  | none => b

/- The a || b idiom on optional strings: the empty string is falsy. -/
def jsOrStr (a b : Option String) : Option String :=
  match a with
  | some s => if s == "" then b else some s
  | none => b

/- ===================== core/router.ts (both variants) ===================== -/

/- The practical cost term of defaultScoring. -/
def practicalScore (candidate : ModelCandidate) (task : DecomposedTask) : ℚ :=
  let words := countWords task.text
  let estTokens : ℚ := max 1 ((jsRound ((words : ℚ) / 4) : ℤ) : ℚ)
  let cost := candidate.costEstimate.getD 1
  let latency := candidate.latencyEstimateMs.getD 200
  cost * estTokens + latency / 100

/- defaultScoring: identical text in both router variants.  The intent and
   ctx parameters of the ScoringStrategy signature are unused. -/
def defaultScoring (candidate : ModelCandidate) (task : DecomposedTask) : ℚ :=
  if !(reasonStartsStrategic candidate) then 5000 + practicalScore candidate task
  else practicalScore candidate task

/- The strategic re-tagging step shared verbatim by both variants:
   candidates whose provider matches the plan's primary or a fallback get
   the strategic model alias, the primary's temperature and a
   strategic-prefixed reason. -/
def applyStrategy (strategy : ModelExecutionPlan) (candidates : List ModelCandidate) :
    List ModelCandidate :=
  let strategicProviders := strategy.primary.provider :: strategy.fallbacks.map (fun f => f.provider)
  candidates.map fun c =>
    if !(strategicProviders.contains c.provider) then c
    else if c.provider == strategy.primary.provider then
      { c with model := strategy.primary.model,
               temperature := some strategy.primary.temperature,
               reason := some ("strategic:" ++ strategy.reason) }
    else
      let fb := strategy.fallbacks.find? (fun f => f.provider == c.provider)
      { c with model := (fb.map (fun f => f.model)).getD c.model,
               temperature := some strategy.primary.temperature,
               reason := some ("strategic:" ++ strategy.reason) }

/- buildCandidates of the first variant: enabled providers in configured
   order, stopping at maxCandidates; no registry filter. -/
def buildCandidatesV1Loop (maxCandidates : Nat) :
    List ProviderConfig → List ModelCandidate → List ModelCandidate
  | [], out => out
  | p :: ps, out =>
    if !p.enabled then buildCandidatesV1Loop maxCandidates ps out
    else
      let meta := p.meta.getD {}
      let out := out ++
        [{ provider := p.name, model := "default",
           temperature := meta.defaultTemperature,
           costEstimate := jsOrNum meta.costPer1k meta.costEstimate,
           latencyEstimateMs := meta.latencyMs,
           reason := some "from-config" }]
      if maxCandidates ≤ out.length then out
      else buildCandidatesV1Loop maxCandidates ps out

def buildCandidatesV1 (providers : List ProviderConfig) (maxCandidates : Nat := 4) :
    List ModelCandidate :=
  buildCandidatesV1Loop maxCandidates providers []

/- buildCandidates of the second variant: additionally skips providers the
   registry does not know. -/
def buildCandidatesV2Loop (known : String → Bool) (maxCandidates : Nat) :
    List ProviderConfig → List ModelCandidate → List ModelCandidate
  | [], out => out
  | p :: ps, out =>
    if !p.enabled then buildCandidatesV2Loop known maxCandidates ps out
    else if !(known p.name) then buildCandidatesV2Loop known maxCandidates ps out
    else
      let meta := p.meta.getD {}
      let out := out ++
        [{ provider := p.name, model := "default",
           temperature := meta.defaultTemperature,
           costEstimate := jsOrNum meta.costPer1k meta.costEstimate,
           latencyEstimateMs := meta.latencyMs,
           reason := some "from-config" }]
      if maxCandidates ≤ out.length then out
      else buildCandidatesV2Loop known maxCandidates ps out

def buildCandidatesV2 (env : RouterEnv) (maxCandidates : Nat := 4) : List ModelCandidate :=
  buildCandidatesV2Loop env.knownProvider maxCandidates env.providersOrdered []

/- ----- first router variant (FAST MODE HEURISTIC, no failsafe) ----- -/

/- The fast-mode override: tasks of at most two words force the intent to
   category fast with confidence 1, keeping the original entities and
   intent label (object spread). -/
def routedIntentV1 (task : DecomposedTask) (intent : Option IntentProfile) :
    Option IntentProfile :=
  let wordCount := countWords task.text
  if wordCount ≤ 2 then
    some { intent := (intent.map (fun i => i.intent)).getD "",
           category := "fast",
           confidence := 1,
           entitiesComplexity := intent.bind (fun i => i.entitiesComplexity) }
  else intent

/- The strategic-selection step of the first variant, guarded by the JS
   truthiness of intent?.category.  selectStrategicModel is total, so the
   enclosing try/catch is dead in the embedding. -/
def candidatesAfterStrategyV1 (providers : List ProviderConfig) (intent : Option IntentProfile)
    (maxCandidates : Nat) : List ModelCandidate :=
  let candidates := buildCandidatesV1 providers maxCandidates
  match intent with
  | some i =>
    if i.category == "" then candidates
    else
      applyStrategy
        (selectStrategicModel i.category (some i.confidence) (i.entitiesComplexity.getD "low"))
        candidates
  | none => candidates

/- routeTask of the first variant, after the intent override. -/
def routeTaskV1Core (env : RouterEnv) (task : DecomposedTask) (intent : Option IntentProfile)
    (ctx : Option PipelineContext) (opts : RouterOptions) : RoutingDecision :=
  let scoring := opts.scoring.getD (fun c t _ _ => defaultScoring c t)
  let maxCandidates := opts.maxCandidates.getD 4
  let candidates := candidatesAfterStrategyV1 env.providersOrdered intent maxCandidates
  let scored := (candidates.map (fun c => (c, scoring c task intent ctx))).mergeSort
    (fun a b => decide (a.2 ≤ b.2))
  let selected :=
    match scored.head? with
    | some s => some s.1
    | none => candidates.head?
  let complexity := jsOrStr (ctx.bind (fun c => c.requestMetaComplexity))
    (intent.bind (fun i => i.entitiesComplexity))
  let fanOut := env.multicore && (complexity == some "high" || complexity == some "deep")
  { taskId := task.id, candidates := scored.map (fun s => s.1),
    selected := selected, fanOut := fanOut }

def routeTaskV1 (env : RouterEnv) (task : DecomposedTask) (intent : Option IntentProfile := none)
    (ctx : Option PipelineContext := none) (opts : RouterOptions := {}) : RoutingDecision :=
  routeTaskV1Core env task (routedIntentV1 task intent) ctx opts

/- ----- second router variant (FAST hard exit + global failsafe) ----- -/

def mapDepthToTaskComplexity (depth : String) : String :=
  if depth == "trivial" then "low"
  else if depth == "deep" then "high"
  else "medium"

def routerDepthV2 (intent : Option IntentProfile) : String :=
  if intent.bind (fun i => i.entitiesComplexity) == some "trivial" then "trivial"
  else if intent.bind (fun i => i.entitiesComplexity) == some "deep" then "deep"
  else "normal"

def taskComplexityV2 (intent : Option IntentProfile) : String :=
  mapDepthToTaskComplexity (routerDepthV2 intent)

/- The FAST hard-exit guard. -/
def fastGate (intent : Option IntentProfile) (taskComplexity : String) : Bool :=
  match intent with
  | some i => i.category == "fast" && decide ((0.9 : ℚ) ≤ i.confidence) && taskComplexity == "low"
  | none => false

def fastExitDecision (task : DecomposedTask) (taskComplexity : String) : RoutingDecision :=
  let strategy := selectStrategicModel "fast" (some 1) taskComplexity
  let selected : ModelCandidate :=
    { provider := strategy.primary.provider, model := strategy.primary.model,
      temperature := some strategy.primary.temperature,
      reason := some ("strategic:" ++ strategy.reason) }
  { taskId := task.id, candidates := [selected], selected := some selected, fanOut := false }

def candidatesAfterStrategyV2 (env : RouterEnv) (intent : Option IntentProfile)
    (maxCandidates : Nat) : List ModelCandidate :=
  let candidates := buildCandidatesV2 env maxCandidates
  match intent with
  | some i =>
    if i.category == "" then candidates
    else
      applyStrategy
        (selectStrategicModel i.category (some i.confidence) (taskComplexityV2 intent))
        candidates
  | none => candidates

/- The GLOBAL FAILSAFE step: when no candidate carries a strategic tag,
   re-tag the hard-coded primary and secondary failsafe providers. -/
def applyFailsafe (candidates : List ModelCandidate) : List ModelCandidate :=
  let hasStrategic := candidates.any (fun c => reasonStartsStrategic c)
  if hasStrategic then candidates
  else
    candidates.map fun c =>
      if c.provider == "deepseek" then { c with reason := some "strategic:failsafe-global" }
      else if c.provider == "mistral" then { c with reason := some "strategic:failsafe-secondary" }
      else c

/- The non-fast-exit path of the second routeTask variant. -/
def routeMainV2 (env : RouterEnv) (task : DecomposedTask) (intent : Option IntentProfile)
    (ctx : Option PipelineContext) (opts : RouterOptions) : RoutingDecision :=
  let scoring := opts.scoring.getD (fun c t _ _ => defaultScoring c t)
  let maxCandidates := opts.maxCandidates.getD 4
  let candidates := applyFailsafe (candidatesAfterStrategyV2 env intent maxCandidates)
  let scored := (candidates.map (fun c => (c, scoring c task intent ctx))).mergeSort
    (fun a b => decide (a.2 ≤ b.2))
  let selected := scored.head?.map (fun s => s.1)
  let fanOut := env.multicore && taskComplexityV2 intent == "high"
  { taskId := task.id, candidates := scored.map (fun s => s.1),
    selected := selected, fanOut := fanOut }

def routeTaskV2 (env : RouterEnv) (task : DecomposedTask) (intent : Option IntentProfile := none)
    (ctx : Option PipelineContext := none) (opts : RouterOptions := {}) : RoutingDecision :=
  let taskComplexity := taskComplexityV2 intent
  if fastGate intent taskComplexity then fastExitDecision task taskComplexity
  else routeMainV2 env task intent ctx opts

/- ===================== src/unnamed/part_016 (TROYA) ===================== -/

structure QualityWeight where
  quality : ℚ
  cost : ℚ
  latency : ℚ
deriving DecidableEq, Repr

def INTENT_WEIGHTS (category : String) : Option QualityWeight :=
  if category == "creative" then some ⟨0.55, 0.2, 0.25⟩
  else if category == "emotional" then some ⟨0.55, 0.25, 0.2⟩
  else if category == "branding" then some ⟨0.6, 0.2, 0.2⟩
  else if category == "informative" then some ⟨0.5, 0.3, 0.2⟩
  else if category == "code" then some ⟨0.6, 0.25, 0.15⟩
  else if category == "math" then some ⟨0.65, 0.2, 0.15⟩
  else if category == "vision" then some ⟨0.55, 0.2, 0.25⟩
  else if category == "fast" then some ⟨0.4, 0.4, 0.2⟩
  else if category == "other" then some ⟨0.5, 0.25, 0.25⟩
  else none

def troyaOtherWeight : QualityWeight := ⟨0.5, 0.25, 0.25⟩

def scoreProvider (quality cost latency : ℚ) (w : QualityWeight) : ℚ :=
  let safeCost := if 0 < cost then cost else 1
  let safeLatency := if 0 < latency then latency else 300
  quality * w.quality + (1 / safeCost) * w.cost + (1 / safeLatency) * w.latency

/- The provider metadata defaults troyaSelect applies (?? chains). -/
def troyaQuality (p : ProviderConfig) : ℚ :=
  ((p.meta.getD {}).qualityScore).getD 0.7

def troyaCost (p : ProviderConfig) : ℚ :=
  (((p.meta.getD {}).costPer1k).orElse (fun _ => (p.meta.getD {}).costEstimate)).getD 1

def troyaLatency (p : ProviderConfig) : ℚ :=
  ((p.meta.getD {}).latencyMs).getD 300

def troyaWeights (intent : Option IntentProfile) : QualityWeight :=
  let category := (intent.map (fun i => i.category)).getD "other"
  (INTENT_WEIGHTS category).getD troyaOtherWeight

/- troyaSelect before the final projection to candidates: filter the
   ordered provider list, build a scored candidate per survivor, and sort
   descending by score ((a, b) => b.score - a.score, stable). -/
def troyaScored (providers : List ProviderConfig) (intent : Option IntentProfile)
    (excludedProviders : List String) : List (ModelCandidate × ℚ) :=
  let weights := troyaWeights intent
  (((providers.filter (fun p => p.enabled)).filter
      (fun p => !(excludedProviders.contains p.name))).map
    (fun p =>
      let meta := p.meta.getD {}
      let quality := troyaQuality p
      let cost := troyaCost p
      let latency := troyaLatency p
      (({ provider := p.name, model := "default",
          temperature := meta.defaultTemperature,
          costEstimate := some cost, latencyEstimateMs := some latency,
          reason := some "strategic:troya" } : ModelCandidate),
       scoreProvider quality cost latency weights))).mergeSort
    (fun a b => decide (b.2 ≤ a.2))

def troyaSelect (providers : List ProviderConfig) (intent : Option IntentProfile)
    (excludedProviders : List String := []) : List ModelCandidate :=
  (troyaScored providers intent excludedProviders).map (fun s => s.1)

/- ===================== statement-side predicates ===================== -/

/- Every provider failure that was executed (is in the attempt log) is
   recorded in the errors list with its capability id, attempt index and
   error value. -/
def ErrorsComplete (prompt : String) (PS : List ModelProvider)
    (log : List (String × Nat)) (errors : List FailoverError) : Prop :=
  ∀ p ∈ PS, ∀ k e, (p.id, k) ∈ log → p.execute prompt k = Except.error e →
    (⟨p.id, k, e⟩ : FailoverError) ∈ errors

/- ErrorsComplete lifted over either loop result. -/
def ErrorsCompleteResult (prompt : String) (PS : List ModelProvider) :
    Sum FailoverOutcome FailoverState → Prop
  | Sum.inl o => ErrorsComplete prompt PS o.attemptLog o.errors
  | Sum.inr st => ErrorsComplete prompt PS st.attemptLog st.errors

/- An execution result that is not a full success: either a thrown error,
   or a result classified partial against the threshold. -/
def NotFullResult (thr : Nat) (x : Except String ExecResult) : Prop :=
  ∀ r, x = Except.ok r → (r.metaPartial = true ∨ r.text.length < thr)

/- Concrete router environments used by witnesses. -/

def routerEnvW : RouterEnv :=
  { providersOrdered := [⟨"llama", true, none⟩, ⟨"deepseek", true, none⟩],
    knownProvider := fun _ => true, multicore := false }

def routerEnvFS : RouterEnv :=
  { providersOrdered := [⟨"deepseek", true, none⟩, ⟨"openai", true, none⟩],
    knownProvider := fun _ => true, multicore := false }

/- ===================== theorems ===================== -/

theorem sanity_scenario_a :
    executeWithFailover [providerAlwaysThrow, providerAlwaysFull] "hi"
      { backoff := some BackoffStrategy.constant, backoffBaseMs := some 1 } =
    Except.ok
      { result := some { text := "ok response text that is long enough", tokensUsed := some 10 },
        providerId := some "p2",
        usedProviders := ["p1", "p2"],
        isPartialOutcome := false,
        errors := [⟨"p1", 0, "boom"⟩, ⟨"p1", 1, "boom"⟩],
        attemptLog := [("p1", 0), ("p1", 1), ("p2", 0)] } := by
  rfl

/- ----- helper lemmas for the strategy table ----- -/

def baseTempOf (category : String) : ℚ :=
  ((categoryStrategy? category).getD otherStrategy).baseTemp

def complexityDelta (taskComplexity : String) : ℚ :=
  (if taskComplexity == "high" then -(0.15 : ℚ) else 0) +
  (if taskComplexity == "low" then (0.05 : ℚ) else 0)

def confidenceDelta (intentConfidence : Option ℚ) : ℚ :=
  match intentConfidence with
  | some c => (if c > 0.85 then -(0.12 : ℚ) else 0) + (if c < 0.4 then (0.12 : ℚ) else 0)
  | none => 0

theorem strategicTemperature_formula (s : CategoryStrategy) (conf : Option ℚ) (cx : String) :
    strategicTemperature s conf cx =
      clamp (round2 (clamp s.baseTemp + complexityDelta cx + confidenceDelta conf)) := by
  unfold strategicTemperature complexityDelta confidenceDelta
  rcases conf with _ | c
  · by_cases h1 : (cx == "high") <;> by_cases h2 : (cx == "low") <;>
      simp [h1, h2] <;> exact congrArg (fun z => clamp (round2 z)) (by ring)
  · by_cases h1 : (cx == "high") <;> by_cases h2 : (cx == "low") <;>
      by_cases h3 : (c > 0.85) <;> by_cases h4 : (c < 0.4) <;>
      simp [h1, h2, h3, h4] <;> exact congrArg (fun z => clamp (round2 z)) (by ring)

theorem selectStrategicModel_temp_formula (category : String) (conf : Option ℚ) (cx : String) :
    (selectStrategicModel category conf cx).primary.temperature =
      clamp (round2 (clamp (baseTempOf category) + complexityDelta cx + confidenceDelta conf)) :=
  strategicTemperature_formula ((categoryStrategy? category).getD otherStrategy) conf cx

theorem clamp_of_bounds (x : ℚ) (h0 : 0 ≤ x) (h1 : x ≤ 1) : clamp x = x := by
  unfold clamp
  rw [min_eq_right h1, max_eq_right h0]

theorem clamp_baseTempOf (category : String) :
    clamp (baseTempOf category) = baseTempOf category := by
  unfold baseTempOf categoryStrategy?
  by_cases h1 : (category == "creative") = true
  · rw [if_pos h1]; exact clamp_of_bounds _ (by norm_num) (by norm_num)
  rw [if_neg h1]
  by_cases h2 : (category == "emotional") = true
  · rw [if_pos h2]; exact clamp_of_bounds _ (by norm_num) (by norm_num)
  rw [if_neg h2]
  by_cases h3 : (category == "code") = true
  · rw [if_pos h3]; exact clamp_of_bounds _ (by norm_num) (by norm_num)
  rw [if_neg h3]
  by_cases h4 : (category == "math") = true
  · rw [if_pos h4]; exact clamp_of_bounds _ (by norm_num) (by norm_num)
  rw [if_neg h4]
  by_cases h5 : (category == "vision") = true
  · rw [if_pos h5]; exact clamp_of_bounds _ (by norm_num) (by norm_num)
  rw [if_neg h5]
  by_cases h6 : (category == "branding") = true
  · rw [if_pos h6]; exact clamp_of_bounds _ (by norm_num) (by norm_num)
  rw [if_neg h6]
  by_cases h7 : (category == "efficiency") = true
  · rw [if_pos h7]; exact clamp_of_bounds _ (by norm_num) (by norm_num)
  rw [if_neg h7]
  by_cases h8 : (category == "informative") = true
  · rw [if_pos h8]; exact clamp_of_bounds _ (by norm_num) (by norm_num)
  rw [if_neg h8]
  by_cases h9 : (category == "other") = true
  · rw [if_pos h9]; exact clamp_of_bounds _ (by norm_num) (by norm_num)
  rw [if_neg h9]
  by_cases h10 : (category == "current") = true
  · rw [if_pos h10]; exact clamp_of_bounds _ (by norm_num) (by norm_num)
  rw [if_neg h10]
  by_cases h11 : (category == "fast") = true
  · rw [if_pos h11]; exact clamp_of_bounds _ (by norm_num) (by norm_num)
  rw [if_neg h11]
  exact clamp_of_bounds _ (by norm_num [otherStrategy]) (by norm_num [otherStrategy])

/-- C8: the temperature returned by selectStrategicModel equals the category's
base temperature plus the complexity adjustment (minus 0.15 for high, plus 0.05
for low) plus the confidence adjustment (minus 0.12 above the 0.85 threshold,
plus 0.12 below the 0.4 threshold), rounded to two decimals and clamped to
[0,1]; in particular for category code, confidence 0.95, complexity high the
result is the base code temperature 0.05 minus both subtractive deltas,
clamped at 0. -/
theorem selectStrategicModel_temperature (category : String) (conf : Option ℚ) (cx : String) :
    (selectStrategicModel category conf cx).primary.temperature =
      clamp (round2 (baseTempOf category + complexityDelta cx + confidenceDelta conf)) ∧
    (selectStrategicModel "code" (some 0.95) "high").primary.temperature =
      clamp ((0.05 : ℚ) - 0.15 - 0.12) ∧
    (selectStrategicModel "code" (some 0.95) "high").primary.temperature = 0 := by
  have main : ∀ (category' : String) (conf' : Option ℚ) (cx' : String),
      (selectStrategicModel category' conf' cx').primary.temperature =
        clamp (round2 (baseTempOf category' + complexityDelta cx' + confidenceDelta conf')) := by
    intro category' conf' cx'
    rw [selectStrategicModel_temp_formula, clamp_baseTempOf]
  have code_val : (selectStrategicModel "code" (some 0.95) "high").primary.temperature = 0 := by
    rw [main "code" (some 0.95) "high"]
    have hb : baseTempOf "code" = 0.05 := by rfl
    have hc : complexityDelta "high" = -(0.15 : ℚ) := by
      norm_num [complexityDelta]
      decide
    have hd : confidenceDelta (some 0.95) = -(0.12 : ℚ) := by norm_num [confidenceDelta]
    rw [hb, hc, hd]
    norm_num [clamp, round2, jsRound]
  refine ⟨main category conf cx, ?_, code_val⟩
  rw [code_val]
  norm_num [clamp]

/-- C7 counterexample: selectStrategicModel applied to category fast with
confidence 1/2 and complexity high (a combination failing the claimed
confidence-at-least-0.9 and lowest-complexity gate) still returns the
fast-lane primary llama/llama-fast, not the other entry's primary
openai/gpt-4o-mini that the claim requires. -/
theorem selectStrategicModel_fast_not_gated_cex :
    (selectStrategicModel "fast" (some (1/2)) "high").primary.provider = "llama" ∧
    (selectStrategicModel "fast" (some (1/2)) "high").primary.model = "llama-fast" ∧
    ¬ ((selectStrategicModel "fast" (some (1/2)) "high").primary.provider = "openai") ∧
    ¬ ((selectStrategicModel "fast" (some (1/2)) "high").primary.model = "gpt-4o-mini") := by
  refine ⟨rfl, rfl, ?_, ?_⟩ <;> (intro h; exact absurd h (by decide))

/-- C7 amended: selectStrategicModel returns the fast-lane strategy entry
(primary llama/llama-fast, fallbacks grok/grok-default and
openai/gpt-4o-mini) for category fast at every confidence and complexity;
the Strategy Table itself never substitutes the other entry, the
confidence/complexity gate being applied by the caller. -/
theorem selectStrategicModel_fast_ungated (conf : Option ℚ) (cx : String) :
    (selectStrategicModel "fast" conf cx).primary.provider = "llama" ∧
    (selectStrategicModel "fast" conf cx).primary.model = "llama-fast" ∧
    (selectStrategicModel "fast" conf cx).fallbacks.map (fun f => (f.provider, f.model)) =
      [("grok", "grok-default"), ("openai", "gpt-4o-mini")] :=
  ⟨rfl, rfl, rfl⟩

/-- C5: for candidates with identical cost estimate, latency estimate and task,
defaultScoring gives a candidate with a strategic-prefixed reason a strictly
smaller score than a candidate without one; the strategic score is the
practical term alone and the non-strategic score is 5000 plus the practical
term. -/
theorem defaultScoring_strategic_precedence (c1 c2 : ModelCandidate) (task : DecomposedTask)
    (hc : c1.costEstimate = c2.costEstimate) (hl : c1.latencyEstimateMs = c2.latencyEstimateMs)
    (h1 : reasonStartsStrategic c1 = true) (h2 : reasonStartsStrategic c2 = false) :
    defaultScoring c1 task < defaultScoring c2 task ∧
    defaultScoring c1 task = practicalScore c1 task ∧
    defaultScoring c2 task = 5000 + practicalScore c2 task := by
  have hp : practicalScore c1 task = practicalScore c2 task := by
    unfold practicalScore
    rw [hc, hl]
  have e1 : defaultScoring c1 task = practicalScore c1 task := by
    unfold defaultScoring
    rw [h1]
    simp
  have e2 : defaultScoring c2 task = 5000 + practicalScore c2 task := by
    unfold defaultScoring
    rw [h2]
    simp
  refine ⟨?_, e1, e2⟩
  rw [e1, e2, ← hp]
  linarith

def candStrategicW : ModelCandidate :=
  { provider := "a", model := "m", costEstimate := some 1, latencyEstimateMs := some 200,
    reason := some "strategic:test" }

def candGenericW : ModelCandidate :=
  { provider := "b", model := "m", costEstimate := some 1, latencyEstimateMs := some 200,
    reason := some "from-config" }

/-- C5 witness at concrete candidates and task. -/
theorem defaultScoring_strategic_precedence_witness :
    defaultScoring candStrategicW ⟨"t", "hello world"⟩ <
      defaultScoring candGenericW ⟨"t", "hello world"⟩ ∧
    defaultScoring candStrategicW ⟨"t", "hello world"⟩ =
      practicalScore candStrategicW ⟨"t", "hello world"⟩ ∧
    defaultScoring candGenericW ⟨"t", "hello world"⟩ =
      5000 + practicalScore candGenericW ⟨"t", "hello world"⟩ :=
  defaultScoring_strategic_precedence candStrategicW candGenericW ⟨"t", "hello world"⟩
    rfl rfl (by decide) (by decide)

/-- C3: evaluation of executeWithFailover at the failing input.  With
capabilities p1 (always the partial "part1") and p2 (always the partial
"part2") and allowPartial true, the code accepts p1's partial on p1's final
retry attempt and returns it as the final result without ever attempting p2
(usedProviders is ["p1"] and the attempt log stops at p1), where the claim
-- and the repository's own retry.test.ts merge test -- require execution to
continue past a non-final capability's partial. -/
theorem executeWithFailover_early_partial_return :
    executeWithFailover [providerPartial1, providerPartial2] "hi"
      { allowPartial := some true } =
    Except.ok
      { result := some { text := "part1", tokensUsed := some 5, metaPartial := true },
        providerId := some "p1",
        usedProviders := ["p1"],
        isPartialOutcome := true,
        errors := [],
        attemptLog := [("p1", 0), ("p1", 1)] } := by
  rfl

/-- C4 counterexample: with capability p1 yielding the partial "part1" then
throwing, capability p2 always yielding the partial "part2", and allowPartial
true, every attempt yields a partial or an error and two partials are
collected, yet the outcome is p2's raw partial: its text "part2" does not
contain the collected fragment "part1", its tokensUsed is 7 rather than the
sum 12, and its providerId is p2 rather than the first partial's source p1. -/
theorem executeWithFailover_partial_merge_cex :
    executeWithFailover [providerPartialThenThrow, providerPartial2] "hi"
      { allowPartial := some true } =
    Except.ok
      { result := some { text := "part2", tokensUsed := some 7, metaPartial := true },
        providerId := some "p2",
        usedProviders := ["p1", "p2"],
        isPartialOutcome := true,
        errors := [⟨"p1", 1, "boom"⟩],
        attemptLog := [("p1", 0), ("p1", 1), ("p2", 0), ("p2", 1)] } ∧
    ¬ ("part1".data <:+: "part2".data) ∧
    (some "p2" : Option String) ≠ some "p1" ∧
    (7 : Nat) ≠ 5 + 7 := by
  refine ⟨by rfl, by decide, by decide, by decide⟩

/- ----- loop lemmas for the failover executor ----- -/

theorem attemptLoop_all_error (p : ModelProvider) (prompt : String) (maxR thr : Nat) (ap : Bool)
    (l : List Nat) (st : FailoverState)
    (h : ∀ k ∈ l, ∃ e, p.execute prompt k = Except.error e) :
    ∃ st', attemptLoop p prompt maxR thr ap l st = Sum.inr st' ∧
      st'.usedProviders = st.usedProviders ∧
      st'.partialResults = st.partialResults ∧
      st'.attemptLog = st.attemptLog ++ l.map (fun k => (p.id, k)) := by
  induction l generalizing st with
  | nil => exact ⟨st, rfl, rfl, rfl, by simp⟩
  | cons a rest ih =>
    obtain ⟨e, he⟩ := h a (List.mem_cons_self a rest)
    obtain ⟨st', hrun, hu, hp, hl⟩ :=
      ih { st with attemptLog := st.attemptLog ++ [(p.id, a)],
                   errors := st.errors ++ [⟨p.id, a, e⟩] }
        (fun k hk => h k (List.mem_cons_of_mem a hk))
    refine ⟨st', ?_, hu, hp, ?_⟩
    · simp only [attemptLoop, he]
      exact hrun
    · rw [hl]
      simp

theorem attemptLoop_first_full (p : ModelProvider) (prompt : String) (maxR thr : Nat) (ap : Bool)
    (a : Nat) (rest : List Nat) (st : FailoverState) (r : ExecResult)
    (hok : p.execute prompt a = Except.ok r) (hmeta : r.metaPartial = false)
    (hlen : thr ≤ r.text.length) :
    attemptLoop p prompt maxR thr ap (a :: rest) st =
      Sum.inl { result := some r, providerId := some p.id,
                usedProviders := st.usedProviders, isPartialOutcome := false,
                errors := st.errors, attemptLog := st.attemptLog ++ [(p.id, a)] } := by
  have hfull : (r.metaPartial || decide (r.text.length < thr)) = false := by
    rw [hmeta]
    simp [Nat.not_lt.mpr hlen]
  simp only [attemptLoop, hok, hfull]
  rfl

theorem providerLoop_error_head (p : ModelProvider) (ps : List ModelProvider) (prompt : String)
    (maxR thr : Nat) (ap : Bool) (st : FailoverState)
    (h : ∀ k, ∃ e, p.execute prompt k = Except.error e) :
    ∃ st', providerLoop prompt maxR thr ap (p :: ps) st = providerLoop prompt maxR thr ap ps st' ∧
      st'.usedProviders = st.usedProviders ++ [p.id] ∧
      st'.partialResults = st.partialResults ∧
      st'.attemptLog = st.attemptLog ++ (List.range (maxR + 1)).map (fun k => (p.id, k)) := by
  obtain ⟨st', hrun, hu, hp, hl⟩ :=
    attemptLoop_all_error p prompt maxR thr ap (List.range (maxR + 1))
      { st with usedProviders := st.usedProviders ++ [p.id] }
      (fun k _ => h k)
  refine ⟨st', ?_, hu, hp, hl⟩
  simp only [providerLoop]
  rw [hrun]

theorem providerLoop_full_head (p : ModelProvider) (ps : List ModelProvider) (prompt : String)
    (maxR thr : Nat) (ap : Bool) (st : FailoverState) (r : ExecResult)
    (hok : p.execute prompt 0 = Except.ok r) (hmeta : r.metaPartial = false)
    (hlen : thr ≤ r.text.length) :
    providerLoop prompt maxR thr ap (p :: ps) st =
      Sum.inl { result := some r, providerId := some p.id,
                usedProviders := st.usedProviders ++ [p.id], isPartialOutcome := false,
                errors := st.errors, attemptLog := st.attemptLog ++ [(p.id, 0)] } := by
  have hrange : List.range (maxR + 1) = 0 :: (List.range maxR).map (· + 1) :=
    List.range_succ_eq_map maxR
  simp only [providerLoop, hrange]
  rw [attemptLoop_first_full p prompt maxR thr ap 0 _ _ r hok hmeta hlen]

/-- C1: for a capability list whose first capability throws on every attempt
and whose second always returns a full (non-partial) result, the outcome is
the second capability's result with partial false, usedProviders lists both
ids in input order, and the attempt log shows every retry of the first
capability exhausted before the second capability's single successful
attempt. -/
theorem executeWithFailover_ordering (p1 p2 : ModelProvider) (rest : List ModelProvider)
    (prompt : String) (opts : FailoverOptions)
    (h1 : ∀ k, ∃ e, p1.execute prompt k = Except.error e)
    (h2 : ∀ k, ∃ r, p2.execute prompt k = Except.ok r ∧ r.metaPartial = false ∧
      resolvedThreshold opts ≤ r.text.length) :
    ∃ o r, executeWithFailover (p1 :: p2 :: rest) prompt opts = Except.ok o ∧
      p2.execute prompt 0 = Except.ok r ∧
      o.result = some r ∧
      o.isPartialOutcome = false ∧
      o.providerId = some p2.id ∧
      o.usedProviders = [p1.id, p2.id] ∧
      o.attemptLog =
        (List.range (resolvedMaxRetries opts + 1)).map (fun k => (p1.id, k)) ++ [(p2.id, 0)] := by
  obtain ⟨r0, hok0, hmeta0, hlen0⟩ := h2 0
  obtain ⟨st', hstep, hu, hp, hl⟩ :=
    providerLoop_error_head p1 (p2 :: rest) prompt (resolvedMaxRetries opts)
      (resolvedThreshold opts) (resolvedAllowPartial opts)
      { errors := [], usedProviders := [], partialResults := [], attemptLog := [] } h1
  have hfull :=
    providerLoop_full_head p2 rest prompt (resolvedMaxRetries opts)
      (resolvedThreshold opts) (resolvedAllowPartial opts) st' r0 hok0 hmeta0 hlen0
  have hmain : executeWithFailover (p1 :: p2 :: rest) prompt opts =
      Except.ok
        { result := some r0, providerId := some p2.id,
          usedProviders := st'.usedProviders ++ [p2.id], isPartialOutcome := false,
          errors := st'.errors, attemptLog := st'.attemptLog ++ [(p2.id, 0)] } := by
    simp only [executeWithFailover]
    rw [if_neg (by simp), hstep, hfull]
  refine ⟨_, r0, hmain, hok0, rfl, rfl, rfl, ?_, ?_⟩
  · show st'.usedProviders ++ [p2.id] = [p1.id, p2.id]
    rw [hu]
    simp
  · show st'.attemptLog ++ [(p2.id, 0)] =
      (List.range (resolvedMaxRetries opts + 1)).map (fun k => (p1.id, k)) ++ [(p2.id, 0)]
    rw [hl]
    simp

/-- C1 witness: a concrete always-throwing first capability, an always-full
second capability and the default options. -/
theorem executeWithFailover_ordering_witness :
    ∃ o r, executeWithFailover [providerAlwaysThrow, providerAlwaysFull] "hi" {} = Except.ok o ∧
      providerAlwaysFull.execute "hi" 0 = Except.ok r ∧
      o.result = some r ∧
      o.isPartialOutcome = false ∧
      o.providerId = some providerAlwaysFull.id ∧
      o.usedProviders = [providerAlwaysThrow.id, providerAlwaysFull.id] ∧
      o.attemptLog = (List.range (resolvedMaxRetries {} + 1)).map
        (fun k => (providerAlwaysThrow.id, k)) ++ [(providerAlwaysFull.id, 0)] :=
  executeWithFailover_ordering providerAlwaysThrow providerAlwaysFull [] "hi" {}
    (fun _ => ⟨"boom", rfl⟩)
    (fun _ => ⟨{ text := "ok response text that is long enough", tokensUsed := some 10 },
      rfl, rfl, by decide⟩)

/- ----- error-recording invariant of the failover loops ----- -/

theorem errorsComplete_append_log_ok (prompt : String) (PS : List ModelProvider)
    (hinj : ∀ p ∈ PS, ∀ q ∈ PS, p.id = q.id → p = q)
    (p : ModelProvider) (hp : p ∈ PS) (a : Nat) (log : List (String × Nat))
    (errors : List FailoverError)
    (hInv : ErrorsComplete prompt PS log errors) (res : ExecResult)
    (hok : p.execute prompt a = Except.ok res) :
    ErrorsComplete prompt PS (log ++ [(p.id, a)]) errors := by
  intro q hq k e hmem hqe
  rcases List.mem_append.mp hmem with hold | hnew
  · exact hInv q hq k e hold hqe
  · have hpair : (q.id, k) = (p.id, a) := by simpa using hnew
    obtain ⟨hid, hk⟩ := Prod.mk.inj hpair
    have hqp : q = p := hinj q hq p hp hid
    subst hqp
    subst hk
    rw [hok] at hqe
    exact absurd hqe (by simp)

theorem errorsComplete_append_log_error (prompt : String) (PS : List ModelProvider)
    (hinj : ∀ p ∈ PS, ∀ q ∈ PS, p.id = q.id → p = q)
    (p : ModelProvider) (hp : p ∈ PS) (a : Nat) (log : List (String × Nat))
    (errors : List FailoverError)
    (hInv : ErrorsComplete prompt PS log errors) (err : String)
    (he : p.execute prompt a = Except.error err) :
    ErrorsComplete prompt PS (log ++ [(p.id, a)]) (errors ++ [⟨p.id, a, err⟩]) := by
  intro q hq k e hmem hqe
  rcases List.mem_append.mp hmem with hold | hnew
  · exact List.mem_append_left _ (hInv q hq k e hold hqe)
  · have hpair : (q.id, k) = (p.id, a) := by simpa using hnew
    obtain ⟨hid, hk⟩ := Prod.mk.inj hpair
    have hqp : q = p := hinj q hq p hp hid
    subst hqp
    subst hk
    rw [he] at hqe
    have : e = err := by
      have := Except.error.inj hqe
      exact this.symm
    subst this
    exact List.mem_append_right _ (List.mem_singleton.mpr (by rw [hid]))

theorem attemptLoop_errors_complete (prompt : String) (PS : List ModelProvider)
    (hinj : ∀ p ∈ PS, ∀ q ∈ PS, p.id = q.id → p = q)
    (p : ModelProvider) (hp : p ∈ PS) (maxR thr : Nat) (ap : Bool) (l : List Nat) :
    ∀ st : FailoverState, ErrorsComplete prompt PS st.attemptLog st.errors →
      ErrorsCompleteResult prompt PS (attemptLoop p prompt maxR thr ap l st) := by
  induction l with
  | nil =>
    intro st hInv
    exact hInv
  | cons a rest ih =>
    intro st hInv
    cases hx : p.execute prompt a with
    | ok res =>
      have hInv1 : ErrorsComplete prompt PS (st.attemptLog ++ [(p.id, a)]) st.errors :=
        errorsComplete_append_log_ok prompt PS hinj p hp a st.attemptLog st.errors hInv res hx
      simp only [attemptLoop, hx]
      split
      · split
        · split <;> exact hInv1
        · split <;> exact ih _ hInv1
      · exact hInv1
    | error err =>
      have hInv2 : ErrorsComplete prompt PS (st.attemptLog ++ [(p.id, a)])
          (st.errors ++ [⟨p.id, a, err⟩]) :=
        errorsComplete_append_log_error prompt PS hinj p hp a st.attemptLog st.errors hInv err hx
      simp only [attemptLoop, hx]
      exact ih _ hInv2

theorem providerLoop_errors_complete (prompt : String) (PS : List ModelProvider)
    (hinj : ∀ p ∈ PS, ∀ q ∈ PS, p.id = q.id → p = q) (maxR thr : Nat) (ap : Bool) :
    ∀ ps : List ModelProvider, (∀ p ∈ ps, p ∈ PS) →
      ∀ st : FailoverState, ErrorsComplete prompt PS st.attemptLog st.errors →
        ErrorsCompleteResult prompt PS (providerLoop prompt maxR thr ap ps st) := by
  intro ps
  induction ps with
  | nil =>
    intro _ st hInv
    exact hInv
  | cons p ps ih =>
    intro hsub st hInv
    have h1 := attemptLoop_errors_complete prompt PS hinj p
      (hsub p (List.mem_cons_self p ps)) maxR thr ap (List.range (maxR + 1))
      { st with usedProviders := st.usedProviders ++ [p.id] } hInv
    simp only [providerLoop]
    cases hres : attemptLoop p prompt maxR thr ap (List.range (maxR + 1))
        { st with usedProviders := st.usedProviders ++ [p.id] } with
    | inl o =>
      rw [hres] at h1
      exact h1
    | inr st' =>
      rw [hres] at h1
      exact ih (fun q hq => hsub q (List.mem_cons_of_mem p hq)) st' h1

theorem exhaustedOutcome_log_errors (st : FailoverState) :
    (exhaustedOutcome st).attemptLog = st.attemptLog ∧
    (exhaustedOutcome st).errors = st.errors := by
  unfold exhaustedOutcome
  cases h : st.partialResults <;> simp

/-- C2: executeWithFailover throws exactly on the empty capability list; for
every non-empty list (with registry-distinct ids) it returns an outcome, and
every executed attempt that threw is recorded in the outcome's errors list as
a (capability id, attempt, error) entry. -/
theorem executeWithFailover_throws_iff_empty (providers : List ModelProvider) (prompt : String)
    (opts : FailoverOptions)
    (hinj : ∀ p ∈ providers, ∀ q ∈ providers, p.id = q.id → p = q) :
    (providers = [] →
      executeWithFailover providers prompt opts =
        Except.error "No providers available for failover execution") ∧
    (providers ≠ [] →
      ∃ o, executeWithFailover providers prompt opts = Except.ok o ∧
        ∀ p ∈ providers, ∀ k e, (p.id, k) ∈ o.attemptLog →
          p.execute prompt k = Except.error e → (⟨p.id, k, e⟩ : FailoverError) ∈ o.errors) := by
  constructor
  · rintro rfl
    rfl
  · intro hne
    have hInv0 : ErrorsComplete prompt providers
        (FailoverState.attemptLog ⟨[], [], [], []⟩) (FailoverState.errors ⟨[], [], [], []⟩) := by
      intro q hq k e hmem _
      exact absurd hmem (List.not_mem_nil _)
    have hrun := providerLoop_errors_complete prompt providers hinj (resolvedMaxRetries opts)
      (resolvedThreshold opts) (resolvedAllowPartial opts) providers (fun _ hq => hq)
      ⟨[], [], [], []⟩ hInv0
    have hlen : ¬(providers.length = 0) := by
      simpa [List.length_eq_zero] using hne
    cases hres : providerLoop prompt (resolvedMaxRetries opts) (resolvedThreshold opts)
        (resolvedAllowPartial opts) providers ⟨[], [], [], []⟩ with
    | inl o =>
      rw [hres] at hrun
      refine ⟨o, ?_, hrun⟩
      simp only [executeWithFailover]
      rw [if_neg hlen, hres]
    | inr st =>
      rw [hres] at hrun
      refine ⟨exhaustedOutcome st, ?_, ?_⟩
      · simp only [executeWithFailover]
        rw [if_neg hlen, hres]
      · intro p hp k e hmem hpe
        rw [(exhaustedOutcome_log_errors st).1] at hmem
        rw [(exhaustedOutcome_log_errors st).2]
        exact hrun p hp k e hmem hpe

/-- C2 witness: the singleton always-throwing capability list. -/
theorem executeWithFailover_throws_iff_empty_witness :
    (([providerAlwaysThrow] : List ModelProvider) = [] →
      executeWithFailover [providerAlwaysThrow] "hi" {} =
        Except.error "No providers available for failover execution") ∧
    (([providerAlwaysThrow] : List ModelProvider) ≠ [] →
      ∃ o, executeWithFailover [providerAlwaysThrow] "hi" {} = Except.ok o ∧
        ∀ p ∈ [providerAlwaysThrow], ∀ k e, (p.id, k) ∈ o.attemptLog →
          p.execute "hi" k = Except.error e → (⟨p.id, k, e⟩ : FailoverError) ∈ o.errors) :=
  executeWithFailover_throws_iff_empty [providerAlwaysThrow] "hi" {}
    (by
      intro p hp q hq _
      rw [List.mem_singleton.mp hp, List.mem_singleton.mp hq])

/- ----- all-partial exhaustion lemmas ----- -/

theorem attemptLoop_all_partial (p : ModelProvider) (prompt : String) (maxR thr : Nat)
    (l : List Nat) :
    ∀ st : FailoverState,
      (∀ k ∈ l, NotFullResult thr (p.execute prompt k)) →
      ∃ st', attemptLoop p prompt maxR thr false l st = Sum.inr st' ∧
        st'.usedProviders = st.usedProviders ∧
        (∃ extra, st'.partialResults = st.partialResults ++ extra) ∧
        ((∃ k ∈ l, ∃ r, p.execute prompt k = Except.ok r) ∨ st.partialResults ≠ [] →
          st'.partialResults ≠ []) := by
  induction l with
  | nil =>
    intro st _
    refine ⟨st, rfl, rfl, ⟨[], by simp⟩, ?_⟩
    rintro (⟨k, hk, _⟩ | hne)
    · exact absurd hk (List.not_mem_nil k)
    · exact hne
  | cons a rest ih =>
    intro st h
    cases hx : p.execute prompt a with
    | error err =>
      obtain ⟨st', hrun, hu, hext, hne⟩ :=
        ih { st with attemptLog := st.attemptLog ++ [(p.id, a)],
                     errors := st.errors ++ [⟨p.id, a, err⟩] }
          (fun k hk => h k (List.mem_cons_of_mem a hk))
      refine ⟨st', ?_, hu, hext, ?_⟩
      · simp only [attemptLoop, hx]
        exact hrun
      · rintro (⟨k, hk, r, hr⟩ | hst)
        · rcases List.mem_cons.mp hk with rfl | hk'
          · rw [hx] at hr
            exact absurd hr (by simp)
          · exact hne (Or.inl ⟨k, hk', r, hr⟩)
        · exact hne (Or.inr hst)
    | ok res =>
      have hpartRes := h a (List.mem_cons_self a rest) res hx
      have hb : (res.metaPartial || decide (res.text.length < thr)) = true := by
        rcases hpartRes with h1 | h1
        · simp [h1]
        · simp [h1]
      by_cases hdup : ((st.partialResults).any fun q => q.provider == p.id) = true
      · obtain ⟨st', hrun, hu, ⟨extra, hpar⟩, _⟩ :=
          ih { st with attemptLog := st.attemptLog ++ [(p.id, a)] }
            (fun k hk => h k (List.mem_cons_of_mem a hk))
        have hstne : st.partialResults ≠ [] := by
          obtain ⟨x, hx', _⟩ := List.any_eq_true.mp hdup
          exact List.ne_nil_of_mem hx'
        refine ⟨st', ?_, hu, ⟨extra, hpar⟩, fun _ => ?_⟩
        · simp only [attemptLoop, hx, hb, Bool.false_and, Bool.false_eq_true, if_false,
            if_true, eq_self_iff_true]
          rw [if_pos hdup]
          exact hrun
        · intro heq
          rw [hpar] at heq
          obtain ⟨h1, _⟩ := List.append_eq_nil.mp heq
          exact hstne h1
      · obtain ⟨st', hrun, hu, ⟨extra, hpar⟩, _⟩ :=
          ih { st with partialResults := st.partialResults ++ [⟨p.id, res⟩],
                       attemptLog := st.attemptLog ++ [(p.id, a)] }
            (fun k hk => h k (List.mem_cons_of_mem a hk))
        refine ⟨st', ?_, hu, ⟨⟨p.id, res⟩ :: extra, ?_⟩, fun _ => ?_⟩
        · simp only [attemptLoop, hx, hb, Bool.false_and, Bool.false_eq_true, if_false,
            if_true, eq_self_iff_true]
          rw [if_neg hdup]
          exact hrun
        · rw [hpar]
          simp
        · intro heq
          rw [hpar] at heq
          obtain ⟨h1, _⟩ := List.append_eq_nil.mp heq
          exact absurd h1 (by simp)

theorem providerLoop_all_partial (prompt : String) (maxR thr : Nat) :
    ∀ ps : List ModelProvider, ∀ st : FailoverState,
      (∀ p ∈ ps, ∀ k ∈ List.range (maxR + 1), NotFullResult thr (p.execute prompt k)) →
      ∃ st', providerLoop prompt maxR thr false ps st = Sum.inr st' ∧
        (∃ extra, st'.partialResults = st.partialResults ++ extra) ∧
        ((∃ p ∈ ps, ∃ k ∈ List.range (maxR + 1), ∃ r, p.execute prompt k = Except.ok r) ∨
            st.partialResults ≠ [] →
          st'.partialResults ≠ []) := by
  intro ps
  induction ps with
  | nil =>
    intro st _
    refine ⟨st, rfl, ⟨[], by simp⟩, ?_⟩
    rintro (⟨p, hp, _⟩ | hne)
    · exact absurd hp (List.not_mem_nil p)
    · exact hne
  | cons p ps ih =>
    intro st h
    obtain ⟨st1, hrun1, hu1, ⟨e1, hpar1⟩, hne1⟩ :=
      attemptLoop_all_partial p prompt maxR thr (List.range (maxR + 1))
        { st with usedProviders := st.usedProviders ++ [p.id] }
        (fun k hk => h p (List.mem_cons_self p ps) k hk)
    obtain ⟨st', hrun2, ⟨e2, hpar2⟩, hne2⟩ :=
      ih st1 (fun q hq k hk => h q (List.mem_cons_of_mem p hq) k hk)
    refine ⟨st', ?_, ⟨e1 ++ e2, ?_⟩, ?_⟩
    · simp only [providerLoop]
      rw [hrun1]
      exact hrun2
    · rw [hpar2, hpar1]
      simp
    · rintro (⟨q, hq, k, hk, r, hr⟩ | hne)
      · rcases List.mem_cons.mp hq with rfl | hq'
        · exact hne2 (Or.inr (hne1 (Or.inl ⟨k, hk, r, hr⟩)))
        · exact hne2 (Or.inl ⟨q, hq', k, hk, r, hr⟩)
      · exact hne2 (Or.inr (hne1 (Or.inr hne)))

/- ----- merge lemmas ----- -/

theorem joinSep_infix (sep : String) (l : List String) (s : String) (hs : s ∈ l) :
    s.data <:+: (joinSep sep l).data := by
  induction l with
  | nil => exact absurd hs (List.not_mem_nil s)
  | cons x rest ih =>
    cases rest with
    | nil =>
      rw [List.mem_singleton.mp hs]
      exact List.infix_rfl
    | cons y t =>
      rcases List.mem_cons.mp hs with rfl | hmem
      · show s.data <:+: (s ++ sep ++ joinSep sep (y :: t)).data
        simp only [String.data_append]
        exact ((List.prefix_append s.data _).trans (List.prefix_append _ _)).isInfix
      · show s.data <:+: (x ++ sep ++ joinSep sep (y :: t)).data
        simp only [String.data_append]
        exact (ih hmem).trans (List.suffix_append _ _).isInfix

theorem foldl_tokens (l : List PartialEntry) (n : Nat) :
    l.foldl (fun sum q => sum + q.res.tokensUsed.getD 0) n =
      n + (l.map (fun q => q.res.tokensUsed.getD 0)).sum := by
  induction l generalizing n with
  | nil => simp
  | cons x xs ih =>
    simp [ih, Nat.add_assoc]

theorem exhaustedOutcome_cons (st : FailoverState) (f : PartialEntry) (r : List PartialEntry)
    (hcons : st.partialResults = f :: r) :
    exhaustedOutcome st =
      { result := some
          { text := joinSep "\n\n---\n\n"
              (((f :: r).map (fun q => q.res.text)).filter (fun t => !(t == ""))),
            tokensUsed := some ((f :: r).foldl (fun sum q => sum + q.res.tokensUsed.getD 0) 0),
            metaPartial := true },
        providerId := some f.provider,
        usedProviders := st.usedProviders, isPartialOutcome := true,
        errors := st.errors, attemptLog := st.attemptLog } := by
  unfold exhaustedOutcome
  rw [hcons]

/-- C4 amended (restricted to allowPartial false, which the counterexample
shows is necessary): when every attempt of every capability yields a partial
result or an error and at least one partial exists, the outcome is the
partial merge: partial true, providerId the first collected partial's source,
the merged text joining the collected fragments with the visible separator
(each non-empty fragment a substring of it), and tokensUsed the sum of the
collected partials' token counts. -/
theorem executeWithFailover_partial_merge (providers : List ModelProvider) (prompt : String)
    (opts : FailoverOptions)
    (hap : resolvedAllowPartial opts = false)
    (hne : providers ≠ [])
    (hnofull : ∀ p ∈ providers, ∀ k ∈ List.range (resolvedMaxRetries opts + 1),
      NotFullResult (resolvedThreshold opts) (p.execute prompt k))
    (hsome : ∃ p ∈ providers, ∃ k ∈ List.range (resolvedMaxRetries opts + 1), ∃ r,
      p.execute prompt k = Except.ok r) :
    ∃ o st firstPartial restPartials merged,
      executeWithFailover providers prompt opts = Except.ok o ∧
      providerLoop prompt (resolvedMaxRetries opts) (resolvedThreshold opts) false providers
        ⟨[], [], [], []⟩ = Sum.inr st ∧
      st.partialResults = firstPartial :: restPartials ∧
      o = exhaustedOutcome st ∧
      o.isPartialOutcome = true ∧
      o.providerId = some firstPartial.provider ∧
      o.result = some merged ∧
      merged.text = joinSep "\n\n---\n\n"
        ((st.partialResults.map (fun q => q.res.text)).filter (fun t => !(t == ""))) ∧
      (∀ q ∈ st.partialResults, q.res.text.data <:+: merged.text.data) ∧
      merged.tokensUsed =
        some ((st.partialResults.map (fun q => q.res.tokensUsed.getD 0)).sum) := by
  obtain ⟨st, hrun, ⟨extra, hpar⟩, hnonempty⟩ :=
    providerLoop_all_partial prompt (resolvedMaxRetries opts) (resolvedThreshold opts)
      providers ⟨[], [], [], []⟩ hnofull
  have hpne : st.partialResults ≠ [] := hnonempty (Or.inl hsome)
  obtain ⟨f, r, hcons⟩ := List.exists_cons_of_ne_nil hpne
  have hexh := exhaustedOutcome_cons st f r hcons
  have hmain : executeWithFailover providers prompt opts = Except.ok (exhaustedOutcome st) := by
    simp only [executeWithFailover]
    rw [if_neg (by simpa [List.length_eq_zero] using hne), hap, hrun]
  refine ⟨exhaustedOutcome st, st, f, r,
    { text := joinSep "\n\n---\n\n"
        (((f :: r).map (fun q => q.res.text)).filter (fun t => !(t == ""))),
      tokensUsed := some ((f :: r).foldl (fun sum q => sum + q.res.tokensUsed.getD 0) 0),
      metaPartial := true },
    hmain, hrun, hcons, rfl, ?_, ?_, ?_, ?_, ?_, ?_⟩
  · rw [hexh]
  · rw [hexh]
  · rw [hexh]
  · rw [hcons]
  · intro q hq
    by_cases hqt : q.res.text = ""
    · rw [hqt]
      exact List.nil_infix
    · apply joinSep_infix
      refine List.mem_filter.mpr ⟨?_, by simp [hqt]⟩
      rw [hcons] at hq
      exact List.mem_map_of_mem (fun q => q.res.text) hq
  · rw [hcons, foldl_tokens]
    simp

/-- C4 witness: a single always-partial capability with the default options
(allowPartial defaults to false). -/
theorem executeWithFailover_partial_merge_witness :
    ∃ o st firstPartial restPartials merged,
      executeWithFailover [providerPartial1] "hi" {} = Except.ok o ∧
      providerLoop "hi" (resolvedMaxRetries {}) (resolvedThreshold {}) false [providerPartial1]
        ⟨[], [], [], []⟩ = Sum.inr st ∧
      st.partialResults = firstPartial :: restPartials ∧
      o = exhaustedOutcome st ∧
      o.isPartialOutcome = true ∧
      o.providerId = some firstPartial.provider ∧
      o.result = some merged ∧
      merged.text = joinSep "\n\n---\n\n"
        ((st.partialResults.map (fun q => q.res.text)).filter (fun t => !(t == ""))) ∧
      (∀ q ∈ st.partialResults, q.res.text.data <:+: merged.text.data) ∧
      merged.tokensUsed =
        some ((st.partialResults.map (fun q => q.res.tokensUsed.getD 0)).sum) :=
  executeWithFailover_partial_merge [providerPartial1] "hi" {} rfl (by simp)
    (by
      intro p hp k _ r hr
      rw [List.mem_singleton.mp hp] at hr
      have : r = { text := "part1", tokensUsed := some 5, metaPartial := true } :=
        (Except.ok.inj hr).symm
      rw [this]
      exact Or.inl rfl)
    ⟨providerPartial1, List.mem_singleton.mpr rfl, 0, by decide,
      { text := "part1", tokensUsed := some 5, metaPartial := true }, rfl⟩

/- ----- router membership lemmas ----- -/

theorem routeMainV2_candidates_mem (env : RouterEnv) (task : DecomposedTask)
    (intent : Option IntentProfile) (ctx : Option PipelineContext) (opts : RouterOptions)
    (x : ModelCandidate)
    (hx : x ∈ applyFailsafe (candidatesAfterStrategyV2 env intent (opts.maxCandidates.getD 4))) :
    x ∈ (routeMainV2 env task intent ctx opts).candidates := by
  simp only [routeMainV2]
  refine List.mem_map.mpr
    ⟨(x, (opts.scoring.getD (fun c t _ _ => defaultScoring c t)) x task intent ctx), ?_, rfl⟩
  rw [List.mem_mergeSort]
  exact List.mem_map_of_mem _ hx

/-- C6: when the fast hard-exit is not taken, no candidate after strategic
selection carries a strategic reason, and the built candidate list includes a
configured failsafe provider (deepseek or mistral), the routing decision's
candidate list contains a candidate whose reason is a failsafe strategic tag. -/
theorem routeTaskV2_global_failsafe (env : RouterEnv) (task : DecomposedTask)
    (intent : Option IntentProfile) (ctx : Option PipelineContext) (opts : RouterOptions)
    (hgate : fastGate intent (taskComplexityV2 intent) = false)
    (hnostrat : ∀ c ∈ candidatesAfterStrategyV2 env intent (opts.maxCandidates.getD 4),
      reasonStartsStrategic c = false)
    (hfs : ∃ c ∈ candidatesAfterStrategyV2 env intent (opts.maxCandidates.getD 4),
      c.provider = "deepseek" ∨ c.provider = "mistral") :
    ∃ c ∈ (routeTaskV2 env task intent ctx opts).candidates,
      c.reason = some "strategic:failsafe-global" ∨
      c.reason = some "strategic:failsafe-secondary" := by
  obtain ⟨c, hc, hcp⟩ := hfs
  have hhas : ((candidatesAfterStrategyV2 env intent (opts.maxCandidates.getD 4)).any
      (fun c => reasonStartsStrategic c)) = false := by
    rw [List.any_eq_false]
    intro x hx
    simp [hnostrat x hx]
  have hroute : routeTaskV2 env task intent ctx opts = routeMainV2 env task intent ctx opts := by
    simp only [routeTaskV2]
    rw [if_neg (by simp [hgate])]
  have hmemFS :
      (if (c.provider == "deepseek") = true
        then { c with reason := some "strategic:failsafe-global" }
        else if (c.provider == "mistral") = true
          then { c with reason := some "strategic:failsafe-secondary" }
          else c) ∈
      applyFailsafe (candidatesAfterStrategyV2 env intent (opts.maxCandidates.getD 4)) := by
    unfold applyFailsafe
    simp only [hhas, Bool.false_eq_true, if_false]
    exact List.mem_map_of_mem _ hc
  rw [hroute]
  refine ⟨_, routeMainV2_candidates_mem env task intent ctx opts _ hmemFS, ?_⟩
  rcases hcp with h | h
  · left
    simp [h]
  · right
    by_cases hd : c.provider = "deepseek"
    · rw [h] at hd
      exact absurd hd (by decide)
    · simp [h, hd]

/-- C6 witness: an environment whose only providers are deepseek and openai,
no intent (so no strategic tagging happens), default options. -/
theorem routeTaskV2_global_failsafe_witness :
    ∃ c ∈ (routeTaskV2 routerEnvFS ⟨"t1", "write an essay about something"⟩ none none {}).candidates,
      c.reason = some "strategic:failsafe-global" ∨
      c.reason = some "strategic:failsafe-secondary" :=
  routeTaskV2_global_failsafe routerEnvFS ⟨"t1", "write an essay about something"⟩ none none {}
    rfl (by decide) (by decide)

/-- C9: troyaSelect returns a candidate for every enabled, non-excluded (and
registry-known) provider; every returned candidate's reason is
strategic:troya; the scored list is sorted descending by score; and each
survivor's score is the weighted quality/cost/latency formula with the weight
triple looked up by category (falling back to the other weighting) over the
defaulted provider metadata. -/
theorem troyaSelect_spec (providers : List ProviderConfig) (intent : Option IntentProfile)
    (excluded : List String) (known : String → Bool) :
    (∀ p ∈ providers, p.enabled = true → excluded.contains p.name = false →
      known p.name = true →
      ∃ c ∈ troyaSelect providers intent excluded,
        c.provider = p.name ∧ c.reason = some "strategic:troya") ∧
    (∀ c ∈ troyaSelect providers intent excluded, c.reason = some "strategic:troya") ∧
    (troyaScored providers intent excluded).Pairwise (fun a b => b.2 ≤ a.2) ∧
    (∀ p ∈ providers, p.enabled = true → excluded.contains p.name = false →
      ∃ s ∈ troyaScored providers intent excluded, s.1.provider = p.name ∧
        s.2 = scoreProvider (troyaQuality p) (troyaCost p) (troyaLatency p)
          (troyaWeights intent)) := by
  have hfiltered : ∀ p ∈ providers, p.enabled = true → excluded.contains p.name = false →
      p ∈ (providers.filter (fun q => q.enabled)).filter
        (fun q => !(excluded.contains q.name)) := by
    intro p hp hen hex
    refine List.mem_filter.mpr ⟨List.mem_filter.mpr ⟨hp, hen⟩, ?_⟩
    rw [hex]
    rfl
  refine ⟨?_, ?_, ?_, ?_⟩
  · intro p hp hen hex _
    unfold troyaSelect troyaScored
    exact ⟨_, List.mem_map.mpr ⟨_, List.mem_mergeSort.mpr
      (List.mem_map_of_mem _ (hfiltered p hp hen hex)), rfl⟩, rfl, rfl⟩
  · intro c hc
    unfold troyaSelect troyaScored at hc
    obtain ⟨s, hs, rfl⟩ := List.mem_map.mp hc
    rw [List.mem_mergeSort] at hs
    obtain ⟨p, _, rfl⟩ := List.mem_map.mp hs
    rfl
  · unfold troyaScored
    refine (List.sorted_mergeSort ?_ ?_ _).imp (fun hab => by simpa using hab)
    · intro a b c hab hbc
      simp only [decide_eq_true_eq] at hab hbc ⊢
      exact le_trans hbc hab
    · intro a b
      simp only [Bool.or_eq_true, decide_eq_true_eq]
      exact le_total b.2 a.2
  · intro p hp hen hex
    unfold troyaScored
    exact ⟨_, List.mem_mergeSort.mpr (List.mem_map_of_mem _ (hfiltered p hp hen hex)),
      rfl, rfl⟩

/-- C9 witness: two providers, one excluded, no intent. -/
theorem troyaSelect_spec_witness :
    (∀ p ∈ ([⟨"openai", true, none⟩, ⟨"qwen", true, none⟩] : List ProviderConfig),
      p.enabled = true → (["qwen"] : List String).contains p.name = false →
      (fun _ => true : String → Bool) p.name = true →
      ∃ c ∈ troyaSelect [⟨"openai", true, none⟩, ⟨"qwen", true, none⟩] none ["qwen"],
        c.provider = p.name ∧ c.reason = some "strategic:troya") ∧
    (∀ c ∈ troyaSelect [⟨"openai", true, none⟩, ⟨"qwen", true, none⟩] none ["qwen"],
      c.reason = some "strategic:troya") ∧
    (troyaScored [⟨"openai", true, none⟩, ⟨"qwen", true, none⟩] none ["qwen"]).Pairwise
      (fun a b => b.2 ≤ a.2) ∧
    (∀ p ∈ ([⟨"openai", true, none⟩, ⟨"qwen", true, none⟩] : List ProviderConfig),
      p.enabled = true → (["qwen"] : List String).contains p.name = false →
      ∃ s ∈ troyaScored [⟨"openai", true, none⟩, ⟨"qwen", true, none⟩] none ["qwen"],
        s.1.provider = p.name ∧
        s.2 = scoreProvider (troyaQuality p) (troyaCost p) (troyaLatency p)
          (troyaWeights none)) :=
  troyaSelect_spec [⟨"openai", true, none⟩, ⟨"qwen", true, none⟩] none ["qwen"]
    (fun _ => true)

/-- C10: for every task of at most two whitespace-separated words, the first
router variant overrides the supplied intent before strategic selection,
forcing category fast with confidence 1 (so the routing decision is
independent of the caller-supplied category and confidence), and the fast
strategy entry consulted has primary llama/llama-fast. -/
theorem routeTaskV1_fast_heuristic (env : RouterEnv) (task : DecomposedTask)
    (intent : Option IntentProfile) (ctx : Option PipelineContext) (opts : RouterOptions)
    (h : countWords task.text ≤ 2) :
    routedIntentV1 task intent =
      some { intent := (intent.map (fun i => i.intent)).getD "",
             category := "fast", confidence := 1,
             entitiesComplexity := intent.bind (fun i => i.entitiesComplexity) } ∧
    (∀ lbl cat conf ents,
      routeTaskV1 env task (some ⟨lbl, cat, conf, ents⟩) ctx opts =
        routeTaskV1 env task (some ⟨lbl, "fast", 1, ents⟩) ctx opts) ∧
    (∀ conf cx, (selectStrategicModel "fast" conf cx).primary.provider = "llama" ∧
      (selectStrategicModel "fast" conf cx).primary.model = "llama-fast") := by
  have hov : ∀ i : Option IntentProfile, routedIntentV1 task i =
      some { intent := (i.map (fun j => j.intent)).getD "", category := "fast",
             confidence := 1,
             entitiesComplexity := i.bind (fun j => j.entitiesComplexity) } := by
    intro i
    unfold routedIntentV1
    rw [if_pos h]
  refine ⟨hov intent, ?_, fun conf cx => ⟨rfl, rfl⟩⟩
  intro lbl cat conf ents
  unfold routeTaskV1
  rw [hov (some ⟨lbl, cat, conf, ents⟩), hov (some ⟨lbl, "fast", 1, ents⟩)]
  simp

/-- C10 witness: the two-word-or-less task "hi" with a caller-supplied
category code and confidence 1/2. -/
theorem routeTaskV1_fast_heuristic_witness :
    routedIntentV1 ⟨"t1", "hi"⟩ (some ⟨"greet", "code", 1/2, none⟩) =
      some { intent := ((some (⟨"greet", "code", 1/2, none⟩ : IntentProfile)).map
               (fun i => i.intent)).getD "",
             category := "fast", confidence := 1,
             entitiesComplexity := (some (⟨"greet", "code", 1/2, none⟩ : IntentProfile)).bind
               (fun i => i.entitiesComplexity) } ∧
    routeTaskV1 routerEnvW ⟨"t1", "hi"⟩ (some ⟨"greet", "code", 1/2, none⟩) none {} =
      routeTaskV1 routerEnvW ⟨"t1", "hi"⟩ (some ⟨"greet", "fast", 1, none⟩) none {} ∧
    (selectStrategicModel "fast" (some (1/2)) "high").primary.provider = "llama" :=
  ⟨(routeTaskV1_fast_heuristic routerEnvW ⟨"t1", "hi"⟩ (some ⟨"greet", "code", 1/2, none⟩)
      none {} (by decide)).1,
   (routeTaskV1_fast_heuristic routerEnvW ⟨"t1", "hi"⟩ (some ⟨"greet", "code", 1/2, none⟩)
      none {} (by decide)).2.1 "greet" "code" (1/2) none,
   ((routeTaskV1_fast_heuristic routerEnvW ⟨"t1", "hi"⟩ (some ⟨"greet", "code", 1/2, none⟩)
      none {} (by decide)).2.2 (some (1/2)) "high").1⟩
